import Mathlib

/-!
Verification development for the prepare-videos repository
(prepare-videos.py, transcode-videos.py, get-subs.py,
prepare-videos-for-lg-tv.py).

Paths are modelled as lists of components (`Path := List String`):
`os.path.join d n` becomes `d ++ [n]`, `os.path.basename p` becomes
`p.getLast?`, `os.path.dirname p` becomes `p.dropLast`.  The filesystem
is an explicit state (`FS`): an association list of file paths to content
identifiers plus a list of directories.  External processes (ffprobe,
ffmpeg, mkvextract, the subtitle download library) are modelled by their
observable behaviour (exit status, whether they wrote their output file),
passed as parameters.
-/

namespace PrepareVideos

/-- One ffprobe stream descriptor: the fields of the JSON dictionaries the
scripts read (`codec_type`, `codec_name`, `index`). -/
structure MediaStream where
  codec_type : String
  codec_name : String
  index : Nat
deriving DecidableEq, Repr

/-- `os.path.splitext` restricted to a single path component (no slash):
the extension starts at the last dot, except that a name whose part before
the last dot is all dots (such as a leading-dot name like `.original`)
has no extension.  Mirrors CPython `genericpath._splitext`. -/
def lastDotIdx : List Char → Option Nat
  | [] => none
  | c :: rest =>
    match lastDotIdx rest with
    | some i => some (i + 1)
    | none => if c = '.' then some 0 else none

def splitextName (name : String) : String × String :=
  let l := name.data
  match lastDotIdx l with
  | none => (name, "")
  | some d =>
    if (l.take d).any (fun c => c ≠ '.') then
      (⟨l.take d⟩, ⟨l.drop d⟩)
    else
      (name, "")

/-- A path, as its list of components. -/
abbrev Path := List String

/-- Association-list lookup for the file table. -/
def lookupA : List (Path × Nat) → Path → Option Nat
  | [], _ => none
  | e :: rest, p => if e.1 = p then some e.2 else lookupA rest p

/-- Remove every entry for a path from the file table. -/
def removeA : List (Path × Nat) → Path → List (Path × Nat)
  | [], _ => []
  | e :: rest, p => if e.1 = p then removeA rest p else e :: removeA rest p

/-- Filesystem state: regular files (path with a content identifier) and
directories. -/
structure FS where
  files : List (Path × Nat)
  dirs : List Path
deriving DecidableEq, Repr

def FS.lookupFile (fs : FS) (p : Path) : Option Nat :=
  lookupA fs.files p

/-- `os.path.isfile`. -/
def FS.isfile (fs : FS) (p : Path) : Bool :=
  (fs.lookupFile p).isSome

/-- `os.path.isdir`. -/
def FS.isdir (fs : FS) (p : Path) : Bool :=
  if p ∈ fs.dirs then true else false

/-- `os.path.exists`. -/
def FS.pathExists (fs : FS) (p : Path) : Bool :=
  fs.isfile p || fs.isdir p

/-- `os.makedirs`. -/
def FS.makedirs (fs : FS) (p : Path) : FS :=
  { fs with dirs := p :: fs.dirs }

/-- `os.rename src dst`: move the file content from `src` to `dst`
(no-op when `src` does not exist; the scripts only rename existing
files). -/
def FS.rename (fs : FS) (src dst : Path) : FS :=
  match lookupA fs.files src with
  | some c => { fs with files := (dst, c) :: removeA fs.files src }
  | none => fs

/-- Creating or overwriting a file with content `c` (what an external
encoder does to its output path). -/
def FS.writeFile (fs : FS) (p : Path) (c : Nat) : FS :=
  { fs with files := (p, c) :: removeA fs.files p }

/-- `os.remove`. -/
def FS.removeFile (fs : FS) (p : Path) : FS :=
  { fs with files := removeA fs.files p }

/-- The CLI configuration the scripts read from `args` (prepare-videos.py
lines 219-246). -/
structure Args where
  container : String
  vcodec : String
  audio_codec : String
  unsupported_video_codecs : List String
  unsupported_audio_codecs : List String
  download_subtitles : Bool
  language : String
deriving DecidableEq, Repr

/-- A discovered video file: the directory it lives in (as components),
its file name (one component) and the stream list obtained from the
prober.  `basename`/`extension` are derived by `os.path.splitext` exactly
as in `Video.__init__`. -/
structure Video where
  directory : Path
  filename : String
  streams : List MediaStream
deriving DecidableEq, Repr

def Video.path (v : Video) : Path := v.directory ++ [v.filename]

def Video.basename (v : Video) : String := (splitextName v.filename).1

def Video.extension (v : Video) : String := (splitextName v.filename).2

/-- `video.sub_path = os.path.join(directory, basename + ".srt")`. -/
def Video.subPath (v : Video) : Path := v.directory ++ [v.basename ++ ".srt"]

/-- The codec-support scan of `transcode_video` (prepare-videos.py lines
134-143, transcode-videos.py lines 27-36): one pass over the streams,
clearing `supported_video_codec` when a video stream's codec name is in
the unsupported-video list and clearing `supported_audio_codec` via the
double-negated audio test, exactly as written in the source. -/
def scanSupport (uv ua : List String) (streams : List MediaStream) : Bool × Bool :=
  streams.foldl
    (fun acc s =>
      let sv := if s.codec_type = "video" ∧ s.codec_name ∈ uv then false else acc.1
      let sa := if ¬ (¬ (s.codec_type = "audio") ∨ ¬ (s.codec_name ∈ ua)) then false else acc.2
      (sv, sa))
    (true, true)

/-- The ffmpeg argument list built in `transcode_video` (prepare-videos.py
lines 158-168, transcode-videos.py lines 51-61). -/
def buildFfmpegCommand (supported_video_codec supported_audio_codec : Bool)
    (a : Args) (original_file target : Path) : List String :=
  ["ffmpeg", "-i"] ++ original_file ++ ["-nostats", "-loglevel", "0"]
  ++ (if ¬ supported_video_codec then ["-c:v", a.vcodec, "-preset", "slow"]
      else ["-vcodec", "copy"])
  ++ (if ¬ supported_audio_codec then ["-c:a", a.audio_codec]
      else ["-acodec", "copy"])
  ++ ["-scodec", "copy"] ++ target

/-- `target = os.path.join(video.directory, video.basename + "." + args.container)`. -/
def targetPath (v : Video) (a : Args) : Path :=
  v.directory ++ [v.basename ++ "." ++ a.container]

/-- `original_dir = os.path.join(video.directory, ".original")`. -/
def originalDir (v : Video) : Path :=
  v.directory ++ [".original"]

/-- `original_file = os.path.join(original_dir, video.filename)`. -/
def originalFile (v : Video) : Path :=
  v.directory ++ [".original", v.filename]

/-- Observable behaviour of one ffmpeg invocation: its exit status and
whether it (partially or fully) wrote the output file, with the content
it wrote. -/
structure EncRun where
  retval : Int
  wroteTarget : Bool
  content : Nat
deriving DecidableEq, Repr

/-- Outcome of `transcode_video` for one file. -/
inductive TOutcome where
  /-- Neither codec scan flagged a stream: "No transcoding needed." -/
  | noTranscodingNeeded
  /-- `original_file` already exists: "exists, cancelling transcoding." -/
  | backupExists
  /-- `target` already a file after the rename: "Skipping already converted video file". -/
  | alreadyConverted
  /-- `FileNotFoundError` from `subprocess.call`: the program exits. -/
  | ffmpegNotFound
  /-- ffmpeg returned non-zero: partial target removed, function returns. -/
  | encodeFailed (cmd : List String) (retval : Int)
  /-- ffmpeg returned zero: `get_subtitles(Video(target))` runs next. -/
  | encodedOk (cmd : List String)
deriving DecidableEq, Repr

/-- `transcode_video` (prepare-videos.py lines 133-187, transcode-videos.py
lines 26-79): scan codec support; if transcoding is needed, guard on the
backup path, create the backup directory, rename the source into it, skip
if the target already exists, invoke ffmpeg (behaviour `enc`; `none`
models `FileNotFoundError`), and on a non-zero exit status delete a
partially written target.  Returns the outcome and the final filesystem.
The successful branch of prepare-videos.py additionally re-runs
`get_subtitles` on a fresh `Video(target)`; that call is outside this
function's claims and is marked by the `encodedOk` outcome. -/
def transcodeVideo (v : Video) (a : Args) (fs : FS) (enc : Option EncRun) :
    TOutcome × FS :=
  let sup := scanSupport a.unsupported_video_codecs a.unsupported_audio_codecs v.streams
  if ¬ sup.1 ∨ ¬ sup.2 then
    let target := targetPath v a
    let original_dir := originalDir v
    let original_file := originalFile v
    if fs.pathExists original_file then
      (.backupExists, fs)
    else
      let fs1 := if fs.pathExists original_dir then fs else fs.makedirs original_dir
      let fs2 := fs1.rename v.path original_file
      if fs2.isfile target then
        (.alreadyConverted, fs2)
      else
        let cmd := buildFfmpegCommand sup.1 sup.2 a original_file target
        match enc with
        | none => (.ffmpegNotFound, fs2)
        | some r =>
          let fs3 := if r.wroteTarget then fs2.writeFile target r.content else fs2
          if r.retval ≠ 0 then
            let fs4 := if fs3.isfile target then fs3.removeFile target else fs3
            (.encodeFailed cmd r.retval, fs4)
          else
            (.encodedOk cmd, fs3)
  else
    (.noTranscodingNeeded, fs)

/-- A directory tree: the regular files directly inside it and its named
subdirectories.  This is the state `os.walk` traverses. -/
inductive DirTree where
  | node (files : List String) (subdirs : List (String × DirTree))

theorem sizeOf_mem_subdirs {x : String × DirTree} {l : List (String × DirTree)}
    (h : x ∈ l) : sizeOf x.2 < 1 + sizeOf l := by
  induction l with
  | nil => cases h
  | cons a rest ih =>
    rw [List.mem_cons] at h
    rcases h with h | h
    · subst h
      cases x
      simp
      omega
    · have := ih h
      simp
      omega

/-- `os.walk(root)` in top-down order: for each directory, the triple
`(root, dirnames, filenames)`, then the walks of the subdirectories. -/
def walk (root : Path) : DirTree → List (Path × List String × List String)
  | .node files subdirs =>
    (root, subdirs.map Prod.fst, files) ::
    (subdirs.attach.map (fun x => walk (root ++ [x.1.1]) x.1.2)).flatten
termination_by t => sizeOf t
decreasing_by
  simp only [DirTree.node.sizeOf_spec]
  have := sizeOf_mem_subdirs x.2
  omega

/-- The fixed extension whitelist of `is_supported_video_file`
(prepare-videos.py line 191). -/
def supportedExtensions : List String :=
  [".mkv", ".mp4", ".avi", ".mpg", ".mpeg", ".divx"]

/-- `is_supported_video_file` (prepare-videos.py lines 190-196): the path
is a regular file (the `isfile` argument models `os.path.isfile`) and its
`splitext` extension is in the whitelist. -/
def isSupportedVideoFile (isfile : Bool) (f : Path) : Bool :=
  if isfile then
    match f.getLast? with
    | some name => if (splitextName name).2 ∈ supportedExtensions then true else false
    | none => false
  else false

/-- The directory branch of `search_videos` (prepare-videos.py lines
204-211, transcode-videos.py lines 95-102): iterate the `os.walk` frames;
for each file name, skip it when the frame's root has basename
`.original`, otherwise join and keep it if supported.  Every name listed
by `walk` is a regular file, so `os.path.isfile` holds for the joined
path. -/
def searchVideosDir (root : Path) (t : DirTree) : List Path :=
  (walk root t).flatMap (fun fr =>
    fr.2.2.filterMap (fun name =>
      if fr.1.getLast? = some ".original" then none
      else
        let f := fr.1 ++ [name]
        if isSupportedVideoFile true f then some f else none))

inductive SearchError where
  | valueError (msg : String)
deriving Repr

/-- `search_videos(directory, files)` (prepare-videos.py lines 199-216):
raises `ValueError` when neither a directory nor files are given,
otherwise the walk results followed by the supported explicit files.
`directory` carries the tree rooted at the given path; `isfile` is the
`os.path.isfile` check used on explicit file arguments. -/
def searchVideos (directory : Option (Path × DirTree)) (files : List Path)
    (isfile : Path → Bool) : Except SearchError (List Path) :=
  if directory.isNone ∧ files = [] then
    .error (.valueError "A directory or a file must be specified")
  else
    .ok ((match directory with
          | some d => searchVideosDir d.1 d.2
          | none => []) ++
         files.filter (fun f => isSupportedVideoFile (isfile f) f))

inductive MainOutcome where
  | exitCode (code : Nat)
  | processVideos (videos : List Path)
deriving Repr

/-- The driver (prepare-videos.py lines 251-259): call `search_videos`;
on `ValueError` log and `sys.exit(1)`; otherwise process the returned
videos in order. -/
def mainSearch (directory : Option (Path × DirTree)) (files : List Path)
    (isfile : Path → Bool) : MainOutcome :=
  match searchVideos directory files isfile with
  | .error _ => .exitCode 1
  | .ok vs => .processVideos vs

/-- Observable behaviour of one `ffprobe` invocation
(`subprocess.check_output`). -/
inductive ProbeResult where
  | output (raw : String)
  | calledProcessError
  | fileNotFound
deriving DecidableEq, Repr

/-- How `Video._scan_video` ends. -/
inductive ScanOutcome where
  /-- ffprobe output parsed: the stream list is recorded. -/
  | ok (streams : List MediaStream)
  /-- `sys.exit(code)`: the whole program stops. -/
  | exitProgram (code : Nat)
  /-- An exception escapes `_scan_video` (the `json.loads` failure is not
  caught anywhere), terminating the run with a traceback. -/
  | uncaughtException
deriving Repr

/-- Whether a `_scan_video` outcome terminates the whole run (a
`sys.exit` or an uncaught exception), as opposed to completing the scan
for this file. -/
def ScanOutcome.stopsRun : ScanOutcome → Bool
  | .ok _ => false
  | .exitProgram _ => true
  | .uncaughtException => true

/-- `Video._scan_video` (prepare-videos.py lines 54-67): run ffprobe; on
`CalledProcessError` or `FileNotFoundError` log critically and
`sys.exit(1)`; otherwise `json.loads` the output (`parse`; `none` models
a JSON decode error, which no caller catches). -/
def scanVideo (probe : ProbeResult)
    (parse : String → Option (List MediaStream)) : ScanOutcome :=
  match probe with
  | .calledProcessError => .exitProgram 1
  | .fileNotFound => .exitProgram 1
  | .output raw =>
    match parse raw with
    | some streams => .ok streams
    | none => .uncaughtException

/-- `Video._scan_embedded_subtitles` (prepare-videos.py lines 69-75,
get-subs.py lines 43-47): first stream with `codec_type == 'subtitle'`
and `codec_name == 'subrip'` wins; `none` models the prepare-videos
variant leaving `embedded_sub_id` unset and the get-subs variant
returning `None`. -/
def scanEmbeddedSubtitles : List MediaStream → Bool × Option Nat
  | [] => (false, none)
  | s :: rest =>
    if s.codec_type = "subtitle" ∧ s.codec_name = "subrip" then
      (true, some s.index)
    else
      scanEmbeddedSubtitles rest

def Video.hasEmbeddedSub (v : Video) : Bool :=
  (scanEmbeddedSubtitles v.streams).1

def Video.embeddedSubId (v : Video) : Option Nat :=
  (scanEmbeddedSubtitles v.streams).2

/-- Externally visible steps the subtitle code takes. -/
inductive SubAction where
  /-- `subprocess.call(["mkvextract", "tracks", path, track:dest])`. -/
  | runMkvextract (path : Path) (track : Nat) (dest : Path)
  /-- `download_sub(video)` (the subliminal download step). -/
  | downloadSub
  /-- `sys.exit(code)`. -/
  | exitProgram (code : Nat)
deriving DecidableEq, Repr

/-- Observable behaviour of one `mkvextract` invocation. -/
inductive ExtractRun where
  | retval (r : Int)
  | fileNotFound
deriving DecidableEq, Repr

/-- `extract_embedded_sub` (prepare-videos.py lines 85-100) as the list of
actions it performs: invoke mkvextract; on non-zero return value fall back
to `download_sub`; on `FileNotFoundError` exit the program. -/
def extractEmbeddedSub (v : Video) (res : ExtractRun) : List SubAction :=
  let invoke := SubAction.runMkvextract v.path (v.embeddedSubId.getD 0) v.subPath
  match res with
  | .fileNotFound => [invoke, .exitProgram 1]
  | .retval r =>
    if r = 0 then [invoke]
    else [invoke, .downloadSub]

/-- `get_subtitles` (prepare-videos.py lines 120-130) as the list of
actions it performs, given the `has_external_sub` scan result, the
`args.download_subtitles` flag and the mkvextract behaviour. -/
def getSubtitles (v : Video) (hasExternalSub downloadSubtitlesFlag : Bool)
    (res : ExtractRun) : List SubAction :=
  if ¬ hasExternalSub then
    if v.hasEmbeddedSub ∧ ¬ downloadSubtitlesFlag then
      extractEmbeddedSub v res
    else
      [.downloadSub]
  else []

namespace GetSubs

/-- `Video.extract_embedded_sub` of get-subs.py (lines 74-83): invoke
mkvextract and log the outcome; a non-zero return value is only logged,
with no download fallback. -/
def extractEmbeddedSub (v : Video) (retval : Int) : List SubAction :=
  [SubAction.runMkvextract v.path (v.embeddedSubId.getD 0) v.subPath]

/-- `Video.get_subtitles` of get-subs.py (lines 54-61). -/
def getSubtitles (v : Video) (hasExternalSub forceDownload : Bool)
    (retval : Int) : List SubAction :=
  if ¬ hasExternalSub then
    if forceDownload then [.downloadSub]
    else if v.hasEmbeddedSub then GetSubs.extractEmbeddedSub v retval
    else [.downloadSub]
  else []

end GetSubs

/-! ## Helper lemmas -/

theorem perm_all_eq {α : Type} {l l' : List α} (h : l.Perm l') (p : α → Bool) :
    l.all p = l'.all p := by
  induction h with
  | nil => rfl
  | cons x h ih => simp [List.all_cons, ih]
  | swap x y l => simp [List.all_cons, Bool.and_left_comm]
  | trans h1 h2 ih1 ih2 => rw [ih1, ih2]

/-- The codec-support loop computes, for each kind, "no stream of that
kind has a codec in the corresponding unsupported list". -/
theorem scanSupport_eq (uv ua : List String) (l : List MediaStream) :
    scanSupport uv ua l =
      (l.all (fun s => ! decide (s.codec_type = "video" ∧ s.codec_name ∈ uv)),
       l.all (fun s => ! decide (s.codec_type = "audio" ∧ s.codec_name ∈ ua))) := by
  have key : ∀ (l : List MediaStream) (init : Bool × Bool),
      l.foldl
        (fun acc s =>
          let sv := if s.codec_type = "video" ∧ s.codec_name ∈ uv then false else acc.1
          let sa := if ¬ (¬ (s.codec_type = "audio") ∨ ¬ (s.codec_name ∈ ua)) then false else acc.2
          (sv, sa))
        init =
      (init.1 && l.all (fun s => ! decide (s.codec_type = "video" ∧ s.codec_name ∈ uv)),
       init.2 && l.all (fun s => ! decide (s.codec_type = "audio" ∧ s.codec_name ∈ ua))) := by
    intro l
    induction l with
    | nil => intro init; simp
    | cons s rest ih =>
      intro init
      rw [List.foldl_cons, ih]
      simp only [List.all_cons, not_or, not_not]
      by_cases h1 : s.codec_type = "video" ∧ s.codec_name ∈ uv <;>
        by_cases h2 : s.codec_type = "audio" ∧ s.codec_name ∈ ua
      · simp only [if_pos h1, if_pos h2, decide_eq_true h1, decide_eq_true h2]
        simp
      · simp only [if_pos h1, if_neg h2, decide_eq_true h1, decide_eq_false h2]
        simp
      · simp only [if_neg h1, if_pos h2, decide_eq_false h1, decide_eq_true h2]
        simp
      · simp only [if_neg h1, if_neg h2, decide_eq_false h1, decide_eq_false h2]
        simp
  rw [scanSupport, key]
  simp

theorem scanSupport_fst_true_iff (uv ua : List String) (l : List MediaStream) :
    (scanSupport uv ua l).1 = true ↔
      ∀ s ∈ l, s.codec_type = "video" → s.codec_name ∉ uv := by
  rw [scanSupport_eq]
  simp only [List.all_eq_true, Bool.not_eq_eq_eq_not, Bool.not_true,
    decide_eq_false_iff_not]
  constructor
  · intro h s hs hv
    intro hmem
    exact h s hs ⟨hv, hmem⟩
  · intro h s hs hc
    exact h s hs hc.1 hc.2

theorem scanSupport_snd_true_iff (uv ua : List String) (l : List MediaStream) :
    (scanSupport uv ua l).2 = true ↔
      ∀ s ∈ l, s.codec_type = "audio" → s.codec_name ∉ ua := by
  rw [scanSupport_eq]
  simp only [List.all_eq_true, Bool.not_eq_eq_eq_not, Bool.not_true,
    decide_eq_false_iff_not]
  constructor
  · intro h s hs hv hmem
    exact h s hs ⟨hv, hmem⟩
  · intro h s hs hc
    exact h s hs hc.1 hc.2

theorem scanSupport_fst_false_iff (uv ua : List String) (l : List MediaStream) :
    (scanSupport uv ua l).1 = false ↔
      ∃ s ∈ l, s.codec_type = "video" ∧ s.codec_name ∈ uv := by
  rw [scanSupport_eq]
  simp [List.all_eq_false]

theorem scanSupport_snd_false_iff (uv ua : List String) (l : List MediaStream) :
    (scanSupport uv ua l).2 = false ↔
      ∃ s ∈ l, s.codec_type = "audio" ∧ s.codec_name ∈ ua := by
  rw [scanSupport_eq]
  simp [List.all_eq_false]

theorem lookupA_removeA (l : List (Path × Nat)) (p q : Path) :
    lookupA (removeA l q) p = if p = q then none else lookupA l p := by
  induction l with
  | nil => simp [removeA, lookupA]
  | cons e rest ih =>
    simp only [removeA]
    by_cases hq : e.1 = q
    · simp only [if_pos hq, ih]
      by_cases hp : p = q
      · simp [hp]
      · have hep : ¬ (e.1 = p) := fun h => hp (h.symm.trans hq)
        simp [lookupA, hp, hep]
    · simp only [if_neg hq, lookupA]
      by_cases hep : e.1 = p
      · have hp : ¬ (p = q) := fun h => hq (hep.trans h)
        simp [hep, hp]
      · simp [hep, ih]

theorem targetPath_ne_originalFile (v : Video) (a : Args) :
    targetPath v a ≠ originalFile v := by
  intro h
  have := congrArg List.length h
  simp [targetPath, originalFile] at this

theorem path_ne_originalFile (v : Video) :
    Video.path v ≠ originalFile v := by
  intro h
  have := congrArg List.length h
  simp [Video.path, originalFile] at this

theorem transcodeVideo_then_ne_noNeed (v : Video) (a : Args) (fs : FS) (enc : Option EncRun)
    (h : ¬ ((scanSupport a.unsupported_video_codecs a.unsupported_audio_codecs v.streams).1 = true ∧
            (scanSupport a.unsupported_video_codecs a.unsupported_audio_codecs v.streams).2 = true)) :
    (transcodeVideo v a fs enc).1 ≠ .noTranscodingNeeded := by
  have hc : (¬ (scanSupport a.unsupported_video_codecs a.unsupported_audio_codecs v.streams).1 = true ∨
             ¬ (scanSupport a.unsupported_video_codecs a.unsupported_audio_codecs v.streams).2 = true) := by
    tauto
  rw [transcodeVideo]
  simp only [if_pos hc]
  repeat' split
  all_goals simp

theorem transcodeVideo_noNeed_iff (v : Video) (a : Args) (fs : FS) (enc : Option EncRun) :
    (transcodeVideo v a fs enc).1 = .noTranscodingNeeded ↔
      (scanSupport a.unsupported_video_codecs a.unsupported_audio_codecs v.streams).1 = true ∧
      (scanSupport a.unsupported_video_codecs a.unsupported_audio_codecs v.streams).2 = true := by
  by_cases h : ((scanSupport a.unsupported_video_codecs a.unsupported_audio_codecs v.streams).1 = true ∧
                (scanSupport a.unsupported_video_codecs a.unsupported_audio_codecs v.streams).2 = true)
  · rw [transcodeVideo]
    rw [if_neg (by tauto)]
    simpa using h
  · simp only [h, iff_false]
    exact transcodeVideo_then_ne_noNeed v a fs enc h

/-! ## Claim theorems -/

/-- Claim C7: for every VideoRecord whose sibling `.srt` exists
(`has_external_sub` true), `get_subtitles` performs no action — neither
embedded-track extraction nor subtitle download — regardless of the
force-download flag and of whether an embedded subtitle track is present,
in both the prepare-videos.py and the get-subs.py variants. -/
theorem subtitle_resolver_external_noop (v : Video)
    (downloadFlag force : Bool) (res : ExtractRun) (r : Int) :
    getSubtitles v true downloadFlag res = [] ∧
    GetSubs.getSubtitles v true force r = [] := by
  constructor <;> simp [getSubtitles, GetSubs.getSubtitles]

/-- Claim C9: when neither a directory nor explicit files are given,
`search_videos` raises `ValueError` (the spec's ConfigurationError) and
the driver exits with status code 1 before processing any file. -/
theorem missing_inputs_configuration_error (isfile : Path → Bool) :
    searchVideos none [] isfile =
      .error (.valueError "A directory or a file must be specified") ∧
    mainSearch none [] isfile = .exitCode 1 := by
  constructor <;> simp [searchVideos, mainSearch]

/-- Claim C10: `_scan_embedded_subtitles` sets `has_embedded_sub` iff some
stream has `codec_type = "subtitle"` and `codec_name = "subrip"` (other
subtitle codecs do not count), and then `embedded_sub_id` is the `index`
of the first such stream in stream order. -/
theorem embedded_subtitle_scan_spec (streams : List MediaStream) :
    ((scanEmbeddedSubtitles streams).1 = true ↔
      ∃ s ∈ streams, s.codec_type = "subtitle" ∧ s.codec_name = "subrip") ∧
    (∀ s, streams.find?
        (fun s => decide (s.codec_type = "subtitle" ∧ s.codec_name = "subrip")) = some s →
      (scanEmbeddedSubtitles streams).2 = some s.index) := by
  induction streams with
  | nil => simp [scanEmbeddedSubtitles]
  | cons s rest ih =>
    by_cases h : s.codec_type = "subtitle" ∧ s.codec_name = "subrip"
    · constructor
      · simp only [scanEmbeddedSubtitles, if_pos h]
        simp only [List.mem_cons, true_iff]
        exact ⟨s, Or.inl rfl, h⟩
      · intro t ht
        rw [List.find?_cons_of_pos _ (by simpa using h)] at ht
        injection ht with ht
        subst ht
        simp [scanEmbeddedSubtitles, if_pos h]
    · constructor
      · rw [scanEmbeddedSubtitles, if_neg h, ih.1]
        simp only [List.mem_cons]
        constructor
        · rintro ⟨t, htm, htp⟩
          exact ⟨t, Or.inr htm, htp⟩
        · rintro ⟨t, htm | htm, htp⟩
          · exact absurd (htm ▸ htp) h
          · exact ⟨t, htm, htp⟩
      · intro t ht
        rw [List.find?_cons_of_neg _ (by simpa using h)] at ht
        rw [scanEmbeddedSubtitles, if_neg h]
        exact ih.2 t ht

/-- Witness for C10 at a concrete stream list: the first subrip subtitle
stream (index 2) wins over the later one (index 5), and a PGS-only list
yields no embedded subtitle. -/
theorem embedded_subtitle_scan_spec_witness :
    (scanEmbeddedSubtitles
        [⟨"video", "h264", 0⟩, ⟨"subtitle", "subrip", 2⟩, ⟨"subtitle", "subrip", 5⟩]).2 =
      some 2 :=
  (embedded_subtitle_scan_spec _).2 ⟨"subtitle", "subrip", 2⟩ (by decide)

/-- Claim C5 counterexample: a prober failure (`CalledProcessError`) makes
`_scan_video` call `sys.exit(1)` — the whole run stops; the file is not
skipped and no per-file error is raised. -/
theorem scan_failure_stops_run_counterexample :
    (scanVideo .calledProcessError (fun _ => none)).stopsRun = true ∧
    scanVideo .calledProcessError (fun _ => none) = .exitProgram 1 :=
  ⟨rfl, rfl⟩

/-- Claim C5 (amended): when the prober exits non-zero or its binary is
missing, `_scan_video` terminates the whole program with exit status 1;
unparsable prober output raises an uncaught exception that ends the run.
Prober failure is never isolated to the single file. -/
theorem scan_failure_exits_program
    (parse : String → Option (List MediaStream)) (raw : String) :
    scanVideo .calledProcessError parse = .exitProgram 1 ∧
    scanVideo .fileNotFound parse = .exitProgram 1 ∧
    (parse raw = none → scanVideo (.output raw) parse = .uncaughtException) := by
  refine ⟨rfl, rfl, fun h => ?_⟩
  simp [scanVideo, h]

/-- Witness for the amended C5 at a concrete unparsable output. -/
theorem scan_failure_exits_program_witness :
    scanVideo (.output "") (fun _ => none) = .uncaughtException :=
  (scan_failure_exits_program (fun _ => none) "").2.2 rfl

/-- Claim C6 counterexample: in get-subs.py, when mkvextract exits
non-zero (return value 1) on a file with an embedded subrip track, the
resolver performs no download fallback — it only runs mkvextract and
logs the failure. -/
theorem getsubs_no_download_fallback_counterexample :
    GetSubs.getSubtitles ⟨["d"], "m.mkv", [⟨"subtitle", "subrip", 2⟩]⟩ false false 1 =
      [SubAction.runMkvextract ["d", "m.mkv"] 2 ["d", "m.srt"]] ∧
    SubAction.downloadSub ∉
      GetSubs.getSubtitles ⟨["d"], "m.mkv", [⟨"subtitle", "subrip", 2⟩]⟩ false false 1 := by
  constructor
  · decide
  · decide

/-- Claim C6 (amended): the download fallback on extraction failure holds
in prepare-videos.py (`extract_embedded_sub` calls `download_sub` when
mkvextract returns non-zero), but not in get-subs.py, whose
`extract_embedded_sub` only logs the failure and never downloads. -/
theorem extract_failure_fallback_by_variant (v : Video) (r : Int) :
    (r ≠ 0 → SubAction.downloadSub ∈ extractEmbeddedSub v (.retval r)) ∧
    SubAction.downloadSub ∉ GetSubs.extractEmbeddedSub v r := by
  constructor
  · intro h
    simp [extractEmbeddedSub, h]
  · simp [GetSubs.extractEmbeddedSub]

/-- Witness for the amended C6 at a concrete video and return value 1. -/
theorem extract_failure_fallback_by_variant_witness :
    SubAction.downloadSub ∈
      extractEmbeddedSub ⟨["e"], "n.mkv", [⟨"subtitle", "subrip", 3⟩]⟩ (.retval 1) :=
  (extract_failure_fallback_by_variant _ 1).1 (by decide)

/-- Claim C2: `transcode_video` takes the "no transcoding needed" branch
iff no video-kind stream's codec is in the unsupported-video list and no
audio-kind stream's codec is in the unsupported-audio list (exact-string,
case-sensitive membership); the decision is invariant under permuting the
streams; and with both unsupported lists empty the planner is a no-op for
every stream list. -/
theorem transcode_decision_spec (v : Video) (a : Args) (fs : FS) (enc : Option EncRun) :
    ((transcodeVideo v a fs enc).1 = .noTranscodingNeeded ↔
      (∀ s ∈ v.streams, s.codec_type = "video" → s.codec_name ∉ a.unsupported_video_codecs) ∧
      (∀ s ∈ v.streams, s.codec_type = "audio" → s.codec_name ∉ a.unsupported_audio_codecs)) ∧
    (∀ l l' : List MediaStream, l.Perm l' →
      scanSupport a.unsupported_video_codecs a.unsupported_audio_codecs l =
        scanSupport a.unsupported_video_codecs a.unsupported_audio_codecs l') ∧
    (a.unsupported_video_codecs = [] → a.unsupported_audio_codecs = [] →
      (transcodeVideo v a fs enc).1 = .noTranscodingNeeded) := by
  refine ⟨?_, ?_, ?_⟩
  · rw [transcodeVideo_noNeed_iff, scanSupport_fst_true_iff, scanSupport_snd_true_iff]
  · intro l l' hperm
    rw [scanSupport_eq, scanSupport_eq, perm_all_eq hperm, perm_all_eq hperm]
  · intro hv ha
    rw [transcodeVideo_noNeed_iff]
    refine ⟨(scanSupport_fst_true_iff _ _ _).mpr ?_, (scanSupport_snd_true_iff _ _ _).mpr ?_⟩
    · intro s _ _
      rw [hv]
      exact List.not_mem_nil _
    · intro s _ _
      rw [ha]
      exact List.not_mem_nil _

/-- Witness for C2: with both unsupported lists empty, a concrete file is
left alone. -/
theorem transcode_decision_spec_witness :
    (transcodeVideo ⟨["d"], "m.mkv", [⟨"video", "h264", 0⟩]⟩
        ⟨"mkv", "libx264", "ac3", [], [], false, "eng"⟩ ⟨[], []⟩ none).1 =
      .noTranscodingNeeded :=
  (transcode_decision_spec _ _ _ _).2.2 rfl rfl

/-- Claim C8: when some video stream's codec is unsupported and no audio
stream's codec is, the constructed ffmpeg argument list re-encodes the
video with the target codec and the slow preset, stream-copies the audio
(`-acodec copy`) and stream-copies the subtitles (`-scodec copy`). -/
theorem encoder_args_reencode_video_copy_audio (v : Video) (a : Args) (ofile tgt : Path)
    (hv : ∃ s ∈ v.streams, s.codec_type = "video" ∧ s.codec_name ∈ a.unsupported_video_codecs)
    (ha : ∀ s ∈ v.streams, s.codec_type = "audio" → s.codec_name ∉ a.unsupported_audio_codecs) :
    buildFfmpegCommand
        (scanSupport a.unsupported_video_codecs a.unsupported_audio_codecs v.streams).1
        (scanSupport a.unsupported_video_codecs a.unsupported_audio_codecs v.streams).2
        a ofile tgt =
      ["ffmpeg", "-i"] ++ ofile ++ ["-nostats", "-loglevel", "0",
       "-c:v", a.vcodec, "-preset", "slow", "-acodec", "copy", "-scodec", "copy"] ++ tgt := by
  have h1 : (scanSupport a.unsupported_video_codecs a.unsupported_audio_codecs v.streams).1 = false :=
    (scanSupport_fst_false_iff _ _ _).mpr hv
  have h2 : (scanSupport a.unsupported_video_codecs a.unsupported_audio_codecs v.streams).2 = true :=
    (scanSupport_snd_true_iff _ _ _).mpr ha
  rw [buildFfmpegCommand, h1, h2]
  simp

/-- Witness for C8 at a concrete hevc-video/aac-audio file with the
default codec policy. -/
theorem encoder_args_reencode_video_copy_audio_witness :
    buildFfmpegCommand
        (scanSupport ["hevc"] ["dts", "dca"] [⟨"video", "hevc", 0⟩, ⟨"audio", "aac", 1⟩]).1
        (scanSupport ["hevc"] ["dts", "dca"] [⟨"video", "hevc", 0⟩, ⟨"audio", "aac", 1⟩]).2
        ⟨"mkv", "libx264", "ac3", ["hevc"], ["dts", "dca"], false, "eng"⟩
        ["d", ".original", "m.mkv"] ["d", "m.mkv"] =
      ["ffmpeg", "-i"] ++ ["d", ".original", "m.mkv"] ++ ["-nostats", "-loglevel", "0",
       "-c:v", "libx264", "-preset", "slow", "-acodec", "copy", "-scodec", "copy"] ++
      ["d", "m.mkv"] :=
  encoder_args_reencode_video_copy_audio
    ⟨["d"], "m.mkv", [⟨"video", "hevc", 0⟩, ⟨"audio", "aac", 1⟩]⟩
    ⟨"mkv", "libx264", "ac3", ["hevc"], ["dts", "dca"], false, "eng"⟩
    ["d", ".original", "m.mkv"] ["d", "m.mkv"]
    (by decide) (by decide)

/-- Claim C3: when a transcode is required but the backup path
`.original/<filename>` already exists, `transcode_video` aborts before
any rename or encoder invocation and the filesystem is returned entirely
unchanged — no existing backup or target file is touched and the source
file is not moved. -/
theorem backup_exists_aborts (v : Video) (a : Args) (fs : FS) (enc : Option EncRun)
    (hneed : (scanSupport a.unsupported_video_codecs a.unsupported_audio_codecs v.streams).1 = false ∨
             (scanSupport a.unsupported_video_codecs a.unsupported_audio_codecs v.streams).2 = false)
    (hb : fs.pathExists (originalFile v) = true) :
    transcodeVideo v a fs enc = (.backupExists, fs) := by
  rcases hneed with h | h <;> simp [transcodeVideo, h, hb]

/-- Witness for C3 at a concrete partially processed tree: both
`.original/m.mkv` and `m.mkv` exist; the call aborts with the state
untouched. -/
theorem backup_exists_aborts_witness :
    transcodeVideo ⟨["d"], "m.mkv", [⟨"video", "hevc", 0⟩]⟩
        ⟨"mkv", "libx264", "ac3", ["hevc"], ["dts", "dca"], false, "eng"⟩
        ⟨[(["d", ".original", "m.mkv"], 0), (["d", "m.mkv"], 1)], [["d", ".original"]]⟩ none =
      (.backupExists,
       ⟨[(["d", ".original", "m.mkv"], 0), (["d", "m.mkv"], 1)], [["d", ".original"]]⟩) :=
  backup_exists_aborts _ _ _ _ (Or.inl (by decide)) (by decide)

/-- Claim C1: when a transcode is required, the guards pass (no
pre-existing backup, source present, target not a file after the rename)
and the encoder exits with a non-zero status, `transcode_video` returns
the failure outcome, the target path is not a file afterwards (any
partially written target was deleted), and the original content is still
at the backup path `.original/<filename>`, unmoved. -/
theorem encoder_failure_cleanup (v : Video) (a : Args) (fs : FS) (r : EncRun) (c : Nat)
    (hneed : (scanSupport a.unsupported_video_codecs a.unsupported_audio_codecs v.streams).1 = false ∨
             (scanSupport a.unsupported_video_codecs a.unsupported_audio_codecs v.streams).2 = false)
    (hnb : fs.pathExists (originalFile v) = false)
    (hsrc : fs.lookupFile v.path = some c)
    (htgt : fs.lookupFile (targetPath v a) = none ∨ targetPath v a = v.path)
    (hr : r.retval ≠ 0) :
    (transcodeVideo v a fs (some r)).1 =
      .encodeFailed
        (buildFfmpegCommand
          (scanSupport a.unsupported_video_codecs a.unsupported_audio_codecs v.streams).1
          (scanSupport a.unsupported_video_codecs a.unsupported_audio_codecs v.streams).2
          a (originalFile v) (targetPath v a))
        r.retval ∧
    FS.isfile (transcodeVideo v a fs (some r)).2 (targetPath v a) = false ∧
    FS.lookupFile (transcodeVideo v a fs (some r)).2 (originalFile v) = some c := by
  have hc : (¬ (scanSupport a.unsupported_video_codecs a.unsupported_audio_codecs v.streams).1 = true ∨
             ¬ (scanSupport a.unsupported_video_codecs a.unsupported_audio_codecs v.streams).2 = true) := by
    rcases hneed with h | h
    · exact Or.inl (by simp [h])
    · exact Or.inr (by simp [h])
  have hsrc' : lookupA fs.files v.path = some c := hsrc
  have hten : targetPath v a ≠ originalFile v := targetPath_ne_originalFile v a
  have h1files : (if fs.pathExists (originalDir v) = true then fs
      else fs.makedirs (originalDir v)).files = fs.files := by
    split <;> rfl
  have hfs2 : ((if fs.pathExists (originalDir v) = true then fs
      else fs.makedirs (originalDir v)).rename v.path (originalFile v)).files =
      (originalFile v, c) :: removeA fs.files v.path := by
    rw [FS.rename, h1files, hsrc']
  have htgt2 : lookupA ((originalFile v, c) :: removeA fs.files v.path) (targetPath v a) = none := by
    rw [lookupA, if_neg (fun h => hten h.symm), lookupA_removeA]
    by_cases ht : targetPath v a = v.path
    · rw [if_pos ht]
    · rw [if_neg ht]
      rcases htgt with h | h
      · exact h
      · exact absurd h ht
  have hofile2 : lookupA ((originalFile v, c) :: removeA fs.files v.path) (originalFile v) = some c := by
    rw [lookupA, if_pos rfl]
  have hnotgt : FS.isfile ((if fs.pathExists (originalDir v) = true then fs
      else fs.makedirs (originalDir v)).rename v.path (originalFile v)) (targetPath v a) = false := by
    rw [FS.isfile, FS.lookupFile, hfs2, htgt2]
    rfl
  simp only [transcodeVideo]
  rw [if_pos hc, if_neg (by simp [hnb]), if_neg (by simp [hnotgt]), if_pos hr]
  refine ⟨rfl, ?_, ?_⟩ <;> by_cases hw : r.wroteTarget = true
  · simp [hw, FS.isfile, FS.lookupFile, FS.writeFile, FS.removeFile, hfs2,
      lookupA, lookupA_removeA]
  · simp [hw, hnotgt, FS.isfile, FS.lookupFile, hfs2, htgt2]
  · simp [hw, FS.isfile, FS.lookupFile, FS.writeFile, FS.removeFile, hfs2,
      lookupA, lookupA_removeA, hten, Ne.symm hten, hofile2]
  · simp [hw, hnotgt, FS.isfile, FS.lookupFile, hfs2, htgt2, hofile2]

/-- Witness for C1: a concrete hevc file `d/m.mkv` (content id 5), an
encoder run that writes a partial target and exits with status 1; the
target `d/m.mkv` (same name, mkv container) is absent afterwards and the
content sits at `d/.original/m.mkv`. -/
theorem encoder_failure_cleanup_witness :
    (transcodeVideo ⟨["d"], "m.mkv", [⟨"video", "hevc", 0⟩]⟩
        ⟨"mkv", "libx264", "ac3", ["hevc"], ["dts", "dca"], false, "eng"⟩
        ⟨[(["d", "m.mkv"], 5)], [["d"]]⟩ (some ⟨1, true, 9⟩)).1 =
      .encodeFailed
        (buildFfmpegCommand
          (scanSupport ["hevc"] ["dts", "dca"] [⟨"video", "hevc", 0⟩]).1
          (scanSupport ["hevc"] ["dts", "dca"] [⟨"video", "hevc", 0⟩]).2
          ⟨"mkv", "libx264", "ac3", ["hevc"], ["dts", "dca"], false, "eng"⟩
          (originalFile ⟨["d"], "m.mkv", [⟨"video", "hevc", 0⟩]⟩)
          (targetPath ⟨["d"], "m.mkv", [⟨"video", "hevc", 0⟩]⟩
            ⟨"mkv", "libx264", "ac3", ["hevc"], ["dts", "dca"], false, "eng"⟩))
        1 ∧
    FS.isfile
      (transcodeVideo ⟨["d"], "m.mkv", [⟨"video", "hevc", 0⟩]⟩
        ⟨"mkv", "libx264", "ac3", ["hevc"], ["dts", "dca"], false, "eng"⟩
        ⟨[(["d", "m.mkv"], 5)], [["d"]]⟩ (some ⟨1, true, 9⟩)).2
      (targetPath ⟨["d"], "m.mkv", [⟨"video", "hevc", 0⟩]⟩
        ⟨"mkv", "libx264", "ac3", ["hevc"], ["dts", "dca"], false, "eng"⟩) = false ∧
    FS.lookupFile
      (transcodeVideo ⟨["d"], "m.mkv", [⟨"video", "hevc", 0⟩]⟩
        ⟨"mkv", "libx264", "ac3", ["hevc"], ["dts", "dca"], false, "eng"⟩
        ⟨[(["d", "m.mkv"], 5)], [["d"]]⟩ (some ⟨1, true, 9⟩)).2
      (originalFile ⟨["d"], "m.mkv", [⟨"video", "hevc", 0⟩]⟩) = some 5 :=
  encoder_failure_cleanup
    ⟨["d"], "m.mkv", [⟨"video", "hevc", 0⟩]⟩
    ⟨"mkv", "libx264", "ac3", ["hevc"], ["dts", "dca"], false, "eng"⟩
    ⟨[(["d", "m.mkv"], 5)], [["d"]]⟩ ⟨1, true, 9⟩ 5
    (Or.inl (by decide)) (by decide) (by decide) (Or.inr (by decide)) (by decide)

/-- Claim C4 counterexample: the walk filter only compares the basename
of the current frame's root with `.original`, so it does not prune the
subtree: a file `x.mkv` in `d/.original/sub/` IS yielded by
`search_videos`, even though it lies under a `.original` directory. -/
theorem discovery_yields_nested_under_original :
    ["d", ".original", "sub", "x.mkv"] ∈
      searchVideosDir ["d"]
        (.node [] [(".original", .node [] [("sub", .node ["x.mkv"] [])])]) ∧
    ".original" ∈ (["d", ".original", "sub", "x.mkv"] : Path).dropLast := by
  constructor
  · have hw : walk ["d"]
        (DirTree.node [] [(".original", .node [] [("sub", .node ["x.mkv"] [])])]) =
        [(["d"], [".original"], []),
         (["d", ".original"], ["sub"], []),
         (["d", ".original", "sub"], [], ["x.mkv"])] := by
      simp [walk]
    rw [searchVideosDir, hw]
    decide
  · decide

/-- Claim C4 (amended): discovery never yields a path whose immediate
parent directory is named `.original` — files directly inside a
`.original` directory are skipped — but paths in subtrees nested deeper
below a `.original` directory can be yielded, because the walk filter
checks only the current frame's basename and does not prune the
subtree. -/
theorem discovery_skips_direct_children_of_original (root : Path) (t : DirTree) (p : Path)
    (hp : p ∈ searchVideosDir root t) :
    p.dropLast.getLast? ≠ some ".original" := by
  rw [searchVideosDir, List.mem_flatMap] at hp
  obtain ⟨fr, hfr, hp⟩ := hp
  rw [List.mem_filterMap] at hp
  obtain ⟨name, hname, heq⟩ := hp
  by_cases hg : fr.1.getLast? = some ".original"
  · rw [if_pos hg] at heq
    cases heq
  · rw [if_neg hg] at heq
    by_cases hs : isSupportedVideoFile true (fr.1 ++ [name]) = true
    · rw [if_pos hs] at heq
      injection heq with heq
      subst heq
      simpa using hg
    · rw [if_neg hs] at heq
      cases heq

/-- Witness for the amended C4: a file discovered at the top level of the
scan has a parent not named `.original`. -/
theorem discovery_skips_direct_children_of_original_witness :
    (["d", "a.mkv"] : Path).dropLast.getLast? ≠ some ".original" :=
  discovery_skips_direct_children_of_original ["d"] (.node ["a.mkv"] []) ["d", "a.mkv"]
    (by
      rw [searchVideosDir,
        show walk ["d"] (.node ["a.mkv"] []) = [(["d"], [], ["a.mkv"])] from by simp [walk]]
      decide)

end PrepareVideos
